import Mathlib

/-!
Verification development for the UAV Deconfliction System frontend
(`src/frontend/src/App.jsx`): the trajectory playback and projection
engine. The React component's pure helpers are embedded as Lean
functions; the component's `useState` cells become the fields of an
`AppState` record and every event handler (button clicks, the animation
interval callback, network-completion continuations) becomes a `step`
of an explicit state machine. JavaScript numbers are idealised as exact
rationals (`ℚ`) for data values and as reals (`ℝ`) for the screen
coordinates produced by the trigonometric projection. Network effects
are modelled by oracles: a `verify` event carries the (possibly failed)
verification response and a per-mission trajectory-fetch oracle.
-/

namespace UAV

/-! ## Data model (spec section 3, shapes used by `App.jsx`) -/

/-- A point of mission space: `{x, y, z}` (used both for waypoints and
for trajectory-sample positions). -/
structure Pos where
  x : ℚ
  y : ℚ
  z : ℚ
deriving DecidableEq, Repr

/-- `TimeWindow`: `{start, end}`. The source field `end` is a reserved
word in Lean and is rendered `endT`. -/
structure TimeWindow where
  start : ℚ
  endT : ℚ
deriving DecidableEq, Repr

/-- `Mission`: `{id, waypoints, timeWindow}`. -/
structure Mission where
  id : String
  waypoints : List Pos
  timeWindow : TimeWindow
deriving DecidableEq, Repr

/-- `TrajectorySample`: `{time, position}`. The position type is a
parameter: `getPositionAtTime` never inspects positions, only times. -/
structure Sample (P : Type) where
  time : ℚ
  position : P
deriving DecidableEq, Repr

/-- `Conflict`: `{time, location, otherDroneId, distance}`. -/
structure Conflict where
  time : ℚ
  location : Pos
  otherDroneId : String
  distance : ℚ
deriving DecidableEq, Repr

/-- `VerificationResult` as consumed by the component: `{status,
conflicts, analysisTime, mlUsed}` (the optional `mlStats` field is only
interpolated into UI text and is not modelled). -/
structure VerificationResult where
  status : String
  conflicts : List Conflict
  analysisTime : ℚ
  mlUsed : Bool
deriving DecidableEq, Repr

/-- One entry of the scenario catalog: `{primary, others}`. -/
structure Scenario where
  primary : Mission
  others : List Mission
deriving DecidableEq, Repr

/-- A trajectory as stored in the `trajectories` map. -/
abbrev Traj : Type := List (Sample Pos)

/-- JavaScript object lookup `obj[k]`, for objects modelled as
association lists in insertion order. -/
def objGet {V : Type} (obj : List (String × V)) (k : String) : Option V :=
  match obj with
  | [] => none
  | (k', v) :: rest => if k' = k then some v else objGet rest k

/-- JavaScript object assignment `obj[k] = v`: overwrite the existing
entry for `k` in place, else append a new entry. -/
def objSet {V : Type} (obj : List (String × V)) (k : String) (v : V) :
    List (String × V) :=
  match obj with
  | [] => [(k, v)]
  | (k', v') :: rest =>
    if k' = k then (k, v) :: rest else (k', v') :: objSet rest k v

/-! ## TrajectorySampler: `getPositionAtTime` (App.jsx lines 116-131) -/

/-- The body of the `for (const sample of trajectory)` loop: keep the
running `(closest, minDiff)` pair unless the current sample is strictly
closer in time. -/
def closestStep {P : Type} (time : ℚ) (acc : Sample P × ℚ) (s : Sample P) :
    Sample P × ℚ :=
  if |s.time - time| < acc.2 then (s, |s.time - time|) else acc

/-- `getPositionAtTime(trajectory, time)`. A `none` trajectory models a
null/undefined argument (`!trajectory`); `some []` models an empty
array. Otherwise the accumulator starts at `trajectory[0]` and the loop
runs over the whole sequence, exactly as in the source. -/
def getPositionAtTime {P : Type} (trajectory : Option (List (Sample P)))
    (time : ℚ) : Option P :=
  match trajectory with
  | none => none
  | some [] => none
  | some (first :: rest) =>
    some (((first :: rest).foldl (closestStep time)
      (first, |first.time - time|)).1.position)

/-! ## ProjectionTransform: `project` (App.jsx lines 136-143) -/

/-- Fixed viewport constant `scale = 2.5`. -/
noncomputable def scale : ℝ := 2.5

/-- Fixed viewport constant `offsetX = 200`. -/
def offsetX : ℝ := 200

/-- Fixed viewport constant `offsetY = 300`. -/
def offsetY : ℝ := 300

/-- The oblique projection `project(x, y, z)` of App.jsx, over exact
reals (`Math.cos`/`Math.sin` idealised as `Real.cos`/`Real.sin`). -/
noncomputable def project (x y z : ℝ) : ℝ × ℝ :=
  (offsetX + (x - y) * Real.cos (Real.pi / 6) * scale,
   offsetY - z * scale * 0.8 + (x + y) * Real.sin (Real.pi / 6) * scale)

/-! ## Application state and event-step semantics

The component's `useState` cells, in source order. -/

/-- The full component state of `App.jsx`. -/
structure AppState where
  scenarios : List (String × Scenario)
  selectedScenario : String
  primaryMission : Option Mission
  otherMissions : List Mission
  verificationResult : Option VerificationResult
  isLoading : Bool
  useML : Bool
  mlAvailable : Bool
  currentTime : ℚ
  isPlaying : Bool
  trajectories : List (String × Traj)
  view3D : Bool

/-- The initial state (the `useState` initialisers, lines 8-19). -/
def initState : AppState where
  scenarios := []
  selectedScenario := "conflict"
  primaryMission := none
  otherMissions := []
  verificationResult := none
  isLoading := false
  useML := false
  mlAvailable := false
  currentTime := 0
  isPlaying := false
  trajectories := []
  view3D := true

/-- A network request issued by the component, recorded so that frame
conditions about "no request is issued" are statable. -/
inductive NetRequest where
  | verifyReq (primary : Mission) (others : List Mission) (useML : Bool)
  | trajectoryReq (mission : Mission) (numSamples : ℕ)

/-- `loadScenario(scenarioKey, scenariosData)` (lines 39-49): when the
key is present in the catalog, install the scenario's missions, clear
the verification result and reset the clock; otherwise do nothing.
Note that the `trajectories` map is left untouched. -/
def loadScenario (s : AppState) (key : String)
    (data : List (String × Scenario)) : AppState :=
  match objGet data key with
  | some sc =>
    { s with primaryMission := some sc.primary
             otherMissions := sc.others
             selectedScenario := key
             verificationResult := none
             currentTime := 0
             isPlaying := false }
  | none => s

/-- `loadTrajectories` (lines 78-97), with the per-mission network
outcome given by the oracle `fetch` (`none` = the request failed or its
body was malformed). Each successful response is written into the fresh
object `trajData` under the mission's id; failures are logged and
skipped. -/
def loadTrajStep (fetch : Mission → Option Traj)
    (trajData : List (String × Traj)) (mission : Mission) :
    List (String × Traj) :=
  match fetch mission with
  | some tr => objSet trajData mission.id tr
  | none => trajData

/-- The aggregate of `loadTrajectories`: fold the per-mission step over
the mission list, starting from the fresh empty object `trajData`. -/
def loadTrajectories (missions : List Mission)
    (fetch : Mission → Option Traj) : List (String × Traj) :=
  missions.foldl (loadTrajStep fetch) []

/-- `verifyMission` (lines 51-76) run to completion, as a function of
the verify response (`none` = the verify fetch threw) and the
trajectory-fetch oracle. Returns the new state together with the
network requests issued. The guard on line 52 returns before anything
(including `setIsLoading(true)`) happens. On success the result is
stored and `loadTrajectories` replaces the trajectory map; on failure
an alert is shown (not modelled) and no result state is updated. In
both completed branches the `finally` clause leaves `isLoading` false. -/
def verifyMission (s : AppState) (response : Option VerificationResult)
    (fetch : Mission → Option Traj) : AppState × List NetRequest :=
  match s.primaryMission, s.otherMissions with
  | some pm, o :: os =>
    let allMissions := pm :: o :: os
    match response with
    | some result =>
      ({ s with verificationResult := some result
                trajectories := loadTrajectories allMissions fetch
                isLoading := false },
       NetRequest.verifyReq pm (o :: os) (s.useML && s.mlAvailable) ::
         allMissions.map (fun m => NetRequest.trajectoryReq m 50))
    | none =>
      ({ s with isLoading := false },
       [NetRequest.verifyReq pm (o :: os) (s.useML && s.mlAvailable)])
  | _, _ => (s, [])

/-- One firing of the 50ms animation interval (lines 99-114). The
interval only exists while `isPlaying && primaryMission`; its callback
clamps to `maxTime` and stops playback when the current time has
already reached `maxTime`, else advances the clock by one unit. -/
def tick (s : AppState) : AppState :=
  match s.primaryMission with
  | none => s
  | some pm =>
    if s.isPlaying then
      if pm.timeWindow.endT ≤ s.currentTime then
        { s with currentTime := pm.timeWindow.endT, isPlaying := false }
      else
        { s with currentTime := s.currentTime + 1 }
    else s

/-- The external events the component reacts to. Network completions
carry their response data as oracle values. -/
inductive Event where
  /-- The startup `/scenarios` fetch resolving (lines 30-36): store the
  catalog and immediately `loadScenario('conflict', data)`. -/
  | scenariosLoaded (data : List (String × Scenario))
  /-- The startup `/health` fetch resolving (lines 21-28). -/
  | healthLoaded (mlAvailable : Bool)
  /-- A scenario button click (lines 263, 273): `loadScenario(key)`,
  reading the catalog from state. -/
  | selectScenario (key : String)
  /-- The Play/Pause button (line 377): `setIsPlaying(!isPlaying)`. -/
  | togglePlay
  /-- The Reset button (lines 384-387). -/
  | resetClock
  /-- The Verify button (line 293): `verifyMission()` run to
  completion with the given network outcomes. -/
  | verify (response : Option VerificationResult)
      (fetch : Mission → Option Traj)
  /-- One firing of the animation interval. -/
  | tickEv
  /-- The ML toggle button (line 311). -/
  | toggleML
  /-- The view toggle button (line 408). -/
  | toggleView

/-- The event-step function of the component. -/
def step (s : AppState) : Event → AppState
  | .scenariosLoaded data =>
    loadScenario { s with scenarios := data } "conflict" data
  | .healthLoaded b => { s with mlAvailable := b }
  | .selectScenario key => loadScenario s key s.scenarios
  | .togglePlay => { s with isPlaying := !s.isPlaying }
  | .resetClock => { s with currentTime := 0, isPlaying := false }
  | .verify response fetch => (verifyMission s response fetch).1
  | .tickEv => tick s
  | .toggleML => { s with useML := !s.useML }
  | .toggleView => { s with view3D := !s.view3D }

/-- The state after a sequence of events from startup. -/
def run (events : List Event) : AppState :=
  events.foldl step initState

/-- A mission whose `timeWindow.end` is a non-negative integer (the
shape the bundled scenarios use). -/
def wfEnd (m : Mission) : Prop :=
  m.timeWindow.endT.den = 1 ∧ 0 ≤ m.timeWindow.endT

instance (m : Mission) : Decidable (wfEnd m) :=
  inferInstanceAs (Decidable (_ ∧ _))

/-- An event whose payload keeps every catalog scenario's primary
mission well-formed in the sense of `wfEnd`. -/
def goodEvent : Event → Prop
  | .scenariosLoaded data => ∀ p ∈ data, wfEnd p.2.primary
  | _ => True

instance (e : Event) : Decidable (goodEvent e) :=
  match e with
  | .scenariosLoaded data =>
    inferInstanceAs (Decidable (∀ p ∈ data, wfEnd p.2.primary))
  | .healthLoaded _ => .isTrue trivial
  | .selectScenario _ => .isTrue trivial
  | .togglePlay => .isTrue trivial
  | .resetClock => .isTrue trivial
  | .verify _ _ => .isTrue trivial
  | .tickEv => .isTrue trivial
  | .toggleML => .isTrue trivial
  | .toggleView => .isTrue trivial

/-! ## SceneComposer: `render3DView` (App.jsx lines 133-230)

The JSX tree is modelled as a list of render primitives; attribute
values keep the exact numbers and strings of the source. The textual
formatting of coordinates into an SVG path `d` string is abstracted to
the list of projected points. -/

/-- A renderable primitive of the composed SVG scene. -/
inductive Prim where
  | line (x1 y1 x2 y2 : ℝ) (stroke : String)
  | path (points : List (ℝ × ℝ)) (stroke : String) (strokeWidth : ℚ)
      (opacity : ℚ) (dashed : Bool)
  | circle (cx cy r : ℝ) (fill : String) (opacity : ℚ)
      (stroke : Option String) (strokeWidth : ℚ)
  | text (x y : ℝ) (content : String) (fill : String) (fontSize : ℚ)
      (bold : Bool) (anchorMiddle : Bool)
  | rect (w h : ℚ) (fill : String) (rx : ℚ)
  | group (opacity : ℚ) (tx ty : ℚ) (children : List Prim)

/-- `renderPath(waypoints, color, opacity)` (lines 145-159): the dashed
projected polyline plus one radius-3 dot per waypoint. -/
noncomputable def renderPath (waypoints : List Pos) (color : String)
    (opacity : ℚ) : List Prim :=
  let points := waypoints.map (fun w => project (w.x : ℝ) (w.y : ℝ) (w.z : ℝ))
  Prim.path points color 2 opacity true ::
    points.map (fun p => Prim.circle p.1 p.2 3 color opacity none 0)

/-- `renderDrone(missionId, color, label)` (lines 161-177): absent
trajectory or absent sample yields no primitive; otherwise a marker
circle with its label above. -/
noncomputable def renderDrone (trajectories : List (String × Traj))
    (currentTime : ℚ) (missionId : String) (color : String)
    (label : String) : List Prim :=
  match objGet trajectories missionId with
  | none => []
  | some trajectory =>
    match getPositionAtTime (some trajectory) currentTime with
    | none => []
    | some pos =>
      let p := project (pos.x : ℝ) (pos.y : ℝ) (pos.z : ℝ)
      [Prim.group 1 0 0
        [Prim.circle p.1 p.2 8 color 1 (some "white") 2,
         Prim.text p.1 (p.2 - 15) label color 11 true true]]

/-- The background grid (lines 182-187): 8 groups of two white lines at
opacity 0.1. -/
def gridPrims : List Prim :=
  (List.range 8).map (fun i =>
    Prim.group 0.1 0 0
      [Prim.line (offsetX + i * 50) (offsetY - 200) (offsetX + i * 50)
         (offsetY + 100) "white",
       Prim.line (offsetX - 200) (offsetY + i * 30) (offsetX + 400)
         (offsetY + i * 30) "white"])

/-- The conflict-zone circles (lines 196-210): one per conflict of the
verification result, at the projected conflict location, radius
`15 * scale`, independent of the current time. -/
noncomputable def conflictPrims
    (verificationResult : Option VerificationResult) : List Prim :=
  match verificationResult with
  | none => []
  | some result =>
    result.conflicts.map (fun conflict =>
      let p := project (conflict.location.x : ℝ) (conflict.location.y : ℝ)
        (conflict.location.z : ℝ)
      Prim.circle p.1 p.2 (15 * scale) "red" 0.2 (some "red") 2)

/-- The static legend (lines 219-227). -/
def legendPrim : Prim :=
  Prim.group 1 20 20
    [Prim.rect 160 80 "rgba(0,0,0,0.7)" 5,
     Prim.circle 15 20 6 "#3b82f6" 1 none 0,
     Prim.text 30 25 "Primary" "white" 11 false false,
     Prim.circle 15 45 6 "#ef4444" 1 none 0,
     Prim.text 30 50 "Drone-A" "white" 11 false false,
     Prim.circle 15 70 6 "#f59e0b" 1 none 0,
     Prim.text 30 75 "Drone-B" "white" 11 false false]

/-- `render3DView` as a function of the state it reads: `none` when no
primary mission is loaded, else the scene's primitives in document
order (grid, paths, conflict zones, drones, legend). -/
noncomputable def render3DView (primaryMission : Option Mission)
    (otherMissions : List Mission) (trajectories : List (String × Traj))
    (verificationResult : Option VerificationResult) (currentTime : ℚ) :
    Option (List Prim) :=
  match primaryMission with
  | none => none
  | some pm =>
    some (gridPrims ++
      renderPath pm.waypoints "#3b82f6" 0.5 ++
      (otherMissions.enum.flatMap fun d =>
        renderPath d.2.waypoints (if d.1 = 0 then "#ef4444" else "#f59e0b")
          0.3) ++
      conflictPrims verificationResult ++
      renderDrone trajectories currentTime pm.id "#3b82f6" "PRIMARY" ++
      (otherMissions.enum.flatMap fun d =>
        renderDrone trajectories currentTime d.2.id
          (if d.1 = 0 then "#ef4444" else "#f59e0b") d.2.id) ++
      [legendPrim])

/-! ## Invariant and concrete fixtures -/

/-- The inductive invariant of the playback clock: the simulated time
is a natural number, every catalog scenario's primary mission is
well-formed, a loaded primary mission is well-formed and bounds the
time, and without a primary mission the time is still zero. -/
def Inv (s : AppState) : Prop :=
  (∃ n : ℕ, s.currentTime = (n : ℚ)) ∧
  (∀ p ∈ s.scenarios, wfEnd p.2.primary) ∧
  (∀ m, s.primaryMission = some m →
    wfEnd m ∧ s.currentTime ≤ m.timeWindow.endT) ∧
  (s.primaryMission = none → s.currentTime = 0)

/-- A mission with time window `[0, 5]`. -/
def cexMission2 : Mission := ⟨"P", [], ⟨0, 5⟩⟩

/-- A one-mission scenario with integer time window `[0, 5]`. -/
def cexScenario2 : Scenario := ⟨cexMission2, []⟩

/-- Load the `[0, 5]` scenario, press Play, and let four ticks fire:
the clock then stands at `time = 4`, still `Playing`. -/
def cexEvents2 : List Event :=
  [.scenariosLoaded [("conflict", cexScenario2)], .togglePlay,
   .tickEv, .tickEv, .tickEv, .tickEv]

/-- A playing state at `time = 3` with the `[0, 5]` mission loaded. -/
def st2 : AppState :=
  { initState with primaryMission := some cexMission2,
                   isPlaying := true, currentTime := 3 }

/-- A mission whose time window is `[0, 9/2]` — `end >= start`, but
`end` is not an integer. -/
def cexMission3 : Mission := ⟨"P", [], ⟨0, 9 / 2⟩⟩

/-- Load the `[0, 9/2]` scenario, press Play, and let five ticks fire. -/
def cexEvents3 : List Event :=
  [.scenariosLoaded [("conflict", ⟨cexMission3, []⟩)], .togglePlay,
   .tickEv, .tickEv, .tickEv, .tickEv, .tickEv]

/-- Load the `[0, 5]` scenario, press Play, and let one tick fire. -/
def wEvents3 : List Event :=
  [.scenariosLoaded [("conflict", cexScenario2)], .togglePlay, .tickEv]

/-- A primary mission fixture. -/
def cexMissionP : Mission := ⟨"P", [⟨0, 0, 0⟩], ⟨0, 100⟩⟩

/-- An other-traffic mission fixture. -/
def cexMissionD : Mission := ⟨"D1", [⟨10, 10, 10⟩], ⟨0, 100⟩⟩

/-- A two-mission scenario fixture. -/
def cexScenario4 : Scenario := ⟨cexMissionP, [cexMissionD]⟩

/-- A CLEAR verification response fixture. -/
def cexResult : VerificationResult := ⟨"CLEAR", [], 0, false⟩

/-- A trajectory-fetch oracle for which every request succeeds. -/
def cexFetch : Mission → Option Traj := fun _ => some [⟨0, ⟨0, 0, 0⟩⟩]

/-- Load a scenario, verify it (populating the trajectory map), then
load a scenario again. -/
def cexEvents4 : List Event :=
  [.scenariosLoaded [("conflict", cexScenario4)],
   .verify (some cexResult) cexFetch,
   .selectScenario "conflict"]

/-- A session state that already holds a trajectory map entry. -/
def st4 : AppState :=
  { initState with trajectories := [("OLD", [⟨0, ⟨1, 2, 3⟩⟩])] }

/-- A state with a primary mission and one other mission loaded. -/
def st8 : AppState :=
  { initState with primaryMission := some cexMissionP,
                   otherMissions := [cexMissionD] }

/-- A trajectory-fetch oracle that succeeds for mission id "P" and
fails for every other mission. -/
def fetch8 : Mission → Option Traj :=
  fun m => if m.id = "P" then some [⟨0, ⟨0, 0, 0⟩⟩] else none

/-! ## Theorems -/

/-- C5: for every input `(x, y, z)`, `project` returns exactly the pair
`(offsetX + (x - y)·cos(π/6)·scale, offsetY - z·scale·0.8 +
(x + y)·sin(π/6)·scale)` with the fixed constants `scale = 2.5`,
`offsetX = 200`, `offsetY = 300`. Purity and absence of side effects
hold by construction: `project` is a Lean function of its arguments
alone. -/
theorem project_formula (x y z : ℝ) :
    project x y z =
      (200 + (x - y) * Real.cos (Real.pi / 6) * 2.5,
       300 - z * 2.5 * 0.8 + (x + y) * Real.sin (Real.pi / 6) * 2.5) :=
  rfl

/-- C6: the projection is affine — the difference
`project(x+dx, y+dy, z+dz) - project(x, y, z)` does not depend on the
base point `(x, y, z)` — and equal input points project to equal output
points. -/
theorem project_affine (x y z a b c dx dy dz : ℝ) :
    project (x + dx) (y + dy) (z + dz) - project x y z =
      project (a + dx) (b + dy) (c + dz) - project a b c ∧
    (x = a → y = b → z = c → project x y z = project a b c) := by
  constructor
  · rw [Prod.ext_iff]
    constructor <;>
      simp only [project, Prod.fst_sub, Prod.snd_sub] <;> ring
  · intro h1 h2 h3
    rw [h1, h2, h3]

/-- C6 witness: the affine property and input-equality congruence at
concrete points. -/
theorem project_affine_witness :
    project (1 + 2) (2 + 2) (3 + 2) - project 1 2 3 =
      project (4 + 2) (5 + 2) (6 + 2) - project 4 5 6 ∧
    project 1 2 3 = project 1 2 3 :=
  ⟨(project_affine 1 2 3 4 5 6 2 2 2).1,
   (project_affine 1 2 3 1 2 3 0 0 0).2 rfl rfl rfl⟩

/-- C7: `getPositionAtTime` returns `none` for an absent (null) or
empty trajectory, for every query time; being a total Lean function
into `Option`, it never throws. -/
theorem getPositionAtTime_absent (P : Type) (t : ℚ) :
    getPositionAtTime (none : Option (List (Sample P))) t = none ∧
    getPositionAtTime (some ([] : List (Sample P))) t = none :=
  ⟨rfl, rfl⟩

/-- C9: scene composition is a deterministic pure function of the
current time, the mission set, the trajectory map and the verification
result: two invocations with identical inputs produce identical
primitive lists (and, being a Lean function, it mutates nothing). -/
theorem render3DView_deterministic (pm₁ pm₂ : Option Mission)
    (om₁ om₂ : List Mission) (tm₁ tm₂ : List (String × Traj))
    (vr₁ vr₂ : Option VerificationResult) (t₁ t₂ : ℚ)
    (hpm : pm₁ = pm₂) (hom : om₁ = om₂) (htm : tm₁ = tm₂)
    (hvr : vr₁ = vr₂) (ht : t₁ = t₂) :
    render3DView pm₁ om₁ tm₁ vr₁ t₁ = render3DView pm₂ om₂ tm₂ vr₂ t₂ := by
  rw [hpm, hom, htm, hvr, ht]

/-- C9 witness: two invocations at equal concrete inputs coincide. -/
theorem render3DView_deterministic_witness :
    render3DView (some cexMissionP) [cexMissionD] [] none 0 =
      render3DView (some cexMissionP) [cexMissionD] [] none 0 :=
  render3DView_deterministic (some cexMissionP) (some cexMissionP)
    [cexMissionD] [cexMissionD] [] [] none none 0 0 rfl rfl rfl rfl rfl

/-- C10: when no primary mission is loaded or there are no other
missions, `verifyMission` returns at its guard: no network request is
issued and the state (verification result, trajectory map, loading
flag, clock — all of it) is unchanged. -/
theorem verifyMission_guard (s : AppState)
    (response : Option VerificationResult) (fetch : Mission → Option Traj)
    (h : s.primaryMission = none ∨ s.otherMissions = []) :
    verifyMission s response fetch = (s, []) := by
  unfold verifyMission
  rcases h with h | h
  · rw [h]
  · rw [h]
    cases s.primaryMission <;> rfl

/-- C10 witness: `verifyMission` on the initial state (no primary
mission) issues no request and changes nothing. -/
theorem verifyMission_guard_witness :
    verifyMission initState none (fun _ => none) = (initState, []) :=
  verifyMission_guard initState none (fun _ => none) (Or.inl rfl)

/-- C4 counterexample: after loading a scenario, verifying (which
populates the trajectory map) and then loading a scenario again, the
trajectory map is not empty — `loadScenario` resets missions,
verification result and clock, but does not discard the trajectory
map, contradicting the claim that it resets all session state. -/
theorem loadScenario_counterexample :
    (run cexEvents4).trajectories ≠ [] ∧
    (run cexEvents4).verificationResult = none ∧
    (run cexEvents4).currentTime = 0 ∧
    (run cexEvents4).isPlaying = false := by decide

/-- C4 (amended): loading a known scenario installs its missions,
clears the verification result and resets the clock to `time = 0`,
`Stopped` — but every other state cell, in particular the trajectory
map, is left unchanged. -/
theorem loadScenario_spec (s : AppState) (key : String)
    (data : List (String × Scenario)) (sc : Scenario)
    (h : objGet data key = some sc) :
    loadScenario s key data =
      { s with primaryMission := some sc.primary
               otherMissions := sc.others
               selectedScenario := key
               verificationResult := none
               currentTime := 0
               isPlaying := false } := by
  unfold loadScenario
  rw [h]

/-- C4 witness: loading a scenario over a state holding a stale
trajectory map entry keeps that entry. -/
theorem loadScenario_spec_witness :
    objGet [("clear", cexScenario2)] "clear" = some cexScenario2 ∧
    loadScenario st4 "clear" [("clear", cexScenario2)] =
      { st4 with primaryMission := some cexScenario2.primary
                 otherMissions := cexScenario2.others
                 selectedScenario := "clear"
                 verificationResult := none
                 currentTime := 0
                 isPlaying := false } :=
  ⟨rfl, loadScenario_spec st4 "clear" [("clear", cexScenario2)]
    cexScenario2 rfl⟩

/-- C2 counterexample: with the `[0, 5]` scenario loaded and playing at
`time = 4`, the next tick advances the time to `5 = timeWindow.end`,
yet the state remains `Playing` — the transition to `Stopped` does not
happen on the tick whose new time reaches the end, but on the tick
after it. -/
theorem tick_counterexample :
    (run cexEvents2).isPlaying = true ∧
    (run cexEvents2).primaryMission = some cexMission2 ∧
    (run cexEvents2).currentTime = 4 ∧
    (run (cexEvents2 ++ [.tickEv])).currentTime =
      cexMission2.timeWindow.endT ∧
    (run (cexEvents2 ++ [.tickEv])).isPlaying = true := by
  norm_num [run, cexEvents2, cexScenario2, cexMission2, step, loadScenario,
    objGet, tick, initState, List.foldl]

/-- C2 (amended): while playing with a primary mission loaded, a tick
that begins with `time < timeWindow.end` increments the time by exactly
1 (and stays `Playing`, even when the new time reaches the end); a tick
that begins with `time >= timeWindow.end` clamps the time to the end
and transitions to `Stopped` — so the stop happens one tick after the
time reaches the end, not on the same tick. -/
theorem tick_spec (s : AppState) (m : Mission)
    (hp : s.primaryMission = some m) (hpl : s.isPlaying = true) :
    (s.currentTime < m.timeWindow.endT →
      tick s = { s with currentTime := s.currentTime + 1 }) ∧
    (m.timeWindow.endT ≤ s.currentTime →
      tick s = { s with currentTime := m.timeWindow.endT,
                        isPlaying := false }) := by
  unfold tick
  rw [hp]
  simp only [hpl, if_true]
  constructor
  · intro hlt
    rw [if_neg (not_le.mpr hlt)]
  · intro hle
    rw [if_pos hle]

/-- C2 witness: at `time = 3` with end `5`, a tick advances the clock
to `4` and keeps playing. -/
theorem tick_spec_witness :
    st2.currentTime < cexMission2.timeWindow.endT ∧
    tick st2 = { st2 with currentTime := st2.currentTime + 1 } :=
  ⟨by decide, (tick_spec st2 cexMission2 rfl rfl).1 (by decide)⟩

/-- Invariant of the sampler's scan: folding `closestStep` from an
accumulator `(c, |c.time - t|)` yields a pair `(r, |r.time - t|)` where
either nothing in the list strictly beat `c` (and `r = c`), or `r`
occurs in the list, strictly beats `c` and everything before it, and
is not beaten (strictly) by anything after it. -/
theorem foldl_closestStep_spec {P : Type} (t : ℚ) :
    ∀ (l : List (Sample P)) (c : Sample P),
      ∃ r : Sample P,
        l.foldl (closestStep t) (c, |c.time - t|) = (r, |r.time - t|) ∧
          ((r = c ∧ ∀ s ∈ l, |c.time - t| ≤ |s.time - t|) ∨
            ∃ l₁ l₂, l = l₁ ++ r :: l₂ ∧ |r.time - t| < |c.time - t| ∧
              (∀ s ∈ l₁, |r.time - t| < |s.time - t|) ∧
              (∀ s ∈ l₂, |r.time - t| ≤ |s.time - t|)) := by
  intro l
  induction l with
  | nil => exact fun c => ⟨c, rfl, Or.inl ⟨rfl, by simp⟩⟩
  | cons a l ih =>
    intro c
    by_cases h : |a.time - t| < |c.time - t|
    · have hstep : List.foldl (closestStep t) (c, |c.time - t|) (a :: l) =
          List.foldl (closestStep t) (a, |a.time - t|) l := by
        rw [List.foldl_cons]
        congr 1
        simp [closestStep, h]
      obtain ⟨r, hr, hcase⟩ := ih a
      refine ⟨r, hstep.trans hr, Or.inr ?_⟩
      rcases hcase with ⟨rfl, hall⟩ | ⟨l₁, l₂, hl, hlt, h₁, h₂⟩
      · exact ⟨[], l, by simp, h, by simp, hall⟩
      · refine ⟨a :: l₁, l₂, by simp [hl], lt_trans hlt h, ?_, h₂⟩
        intro s hs
        rcases List.mem_cons.mp hs with rfl | hs
        · exact hlt
        · exact h₁ s hs
    · have hstep : List.foldl (closestStep t) (c, |c.time - t|) (a :: l) =
          List.foldl (closestStep t) (c, |c.time - t|) l := by
        rw [List.foldl_cons]
        congr 1
        simp [closestStep, h]
      obtain ⟨r, hr, hcase⟩ := ih c
      refine ⟨r, hstep.trans hr, ?_⟩
      rcases hcase with ⟨hrc, hall⟩ | ⟨l₁, l₂, hl, hlt, h₁, h₂⟩
      · refine Or.inl ⟨hrc, ?_⟩
        intro s hs
        rcases List.mem_cons.mp hs with rfl | hs
        · exact not_lt.mp h
        · exact hall s hs
      · refine Or.inr ⟨a :: l₁, l₂, by simp [hl], hlt, ?_, h₂⟩
        intro s hs
        rcases List.mem_cons.mp hs with rfl | hs
        · exact lt_of_lt_of_le hlt (not_lt.mp h)
        · exact h₁ s hs

/-- C1: for every non-empty trajectory and every query time `t`,
`getPositionAtTime` returns the position of a sample `s` that splits
the trajectory as `l₁ ++ s :: l₂` where every sample of the prefix
`l₁` is strictly farther from `t` and no sample anywhere is strictly
closer — i.e. the earliest-in-sequence sample of minimal time distance.
In particular, if some sample has time exactly `t`, the returned
sample's time is exactly `t`. -/
theorem getPositionAtTime_nearest (P : Type) (traj : List (Sample P))
    (t : ℚ) (h : traj ≠ []) :
    ∃ l₁ s l₂, traj = l₁ ++ s :: l₂ ∧
      getPositionAtTime (some traj) t = some s.position ∧
      (∀ s' ∈ traj, |s.time - t| ≤ |s'.time - t|) ∧
      (∀ s' ∈ l₁, |s.time - t| < |s'.time - t|) ∧
      (∀ s' ∈ traj, s'.time = t → s.time = t) := by
  cases traj with
  | nil => exact absurd rfl h
  | cons first rest =>
    obtain ⟨r, hr, hcase⟩ := foldl_closestStep_spec t (first :: rest) first
    have hres : getPositionAtTime (some (first :: rest)) t =
        some r.position := by
      simp only [getPositionAtTime, hr]
    have exact_of_min :
        ∀ q : Sample P, (∀ s' ∈ first :: rest, |q.time - t| ≤ |s'.time - t|) →
          ∀ s' ∈ first :: rest, s'.time = t → q.time = t := by
      intro q hq s' hs' hst
      have h0 : |q.time - t| ≤ |s'.time - t| := hq s' hs'
      rw [hst, sub_self, abs_zero] at h0
      have := abs_nonneg (q.time - t)
      have heq : q.time - t = 0 := abs_eq_zero.mp (le_antisymm h0 this)
      linarith
    rcases hcase with ⟨rfl, hall⟩ | ⟨l₁, l₂, hl, _, h₁, h₂⟩
    · exact ⟨[], r, rest, by simp, hres, hall, by simp,
        exact_of_min r hall⟩
    · have hmin : ∀ s' ∈ first :: rest, |r.time - t| ≤ |s'.time - t| := by
        intro s' hs'
        rw [hl] at hs'
        rcases List.mem_append.mp hs' with hs' | hs'
        · exact le_of_lt (h₁ s' hs')
        · rcases List.mem_cons.mp hs' with rfl | hs'
          · exact le_refl _
          · exact h₂ s' hs'
      exact ⟨l₁, r, l₂, hl, hres, hmin, h₁, exact_of_min r hmin⟩

/-- C1 witness: on the two-sample trajectory `[(time 0), (time 10)]`
queried at `t = 7`, the nearest-sample guarantees hold concretely. -/
theorem getPositionAtTime_nearest_witness :
    ∃ l₁ s l₂, ([⟨0, 0⟩, ⟨10, 1⟩] : List (Sample ℤ)) = l₁ ++ s :: l₂ ∧
      getPositionAtTime (some ([⟨0, 0⟩, ⟨10, 1⟩] : List (Sample ℤ))) 7 =
        some s.position ∧
      (∀ s' ∈ ([⟨0, 0⟩, ⟨10, 1⟩] : List (Sample ℤ)),
        |s.time - 7| ≤ |s'.time - 7|) ∧
      (∀ s' ∈ l₁, |s.time - 7| < |s'.time - 7|) ∧
      (∀ s' ∈ ([⟨0, 0⟩, ⟨10, 1⟩] : List (Sample ℤ)),
        s'.time = 7 → s.time = 7) :=
  getPositionAtTime_nearest ℤ [⟨0, 0⟩, ⟨10, 1⟩] 7 (by simp)

/-- Looking up the key just assigned returns the assigned value. -/
theorem objGet_objSet_self {V : Type} (obj : List (String × V))
    (k : String) (v : V) : objGet (objSet obj k v) k = some v := by
  induction obj with
  | nil => simp [objSet, objGet]
  | cons p rest ih =>
    obtain ⟨a, b⟩ := p
    by_cases ha : a = k
    · simp [objSet, objGet, ha]
    · simp [objSet, objGet, ha, ih]

/-- Assignment to one key leaves every other key's lookup unchanged. -/
theorem objGet_objSet_other {V : Type} (obj : List (String × V))
    (k k' : String) (v : V) (h : k' ≠ k) :
    objGet (objSet obj k v) k' = objGet obj k' := by
  induction obj with
  | nil => simp [objSet, objGet, h.symm]
  | cons p rest ih =>
    obtain ⟨a, b⟩ := p
    by_cases ha : a = k
    · simp [objSet, objGet, ha, h.symm]
    · simp [objSet, objGet, ha, ih]

/-- Every entry of `objSet obj k v` is the new binding or an old one. -/
theorem mem_objSet {V : Type} (obj : List (String × V)) (k : String)
    (v : V) : ∀ p ∈ objSet obj k v, p = (k, v) ∨ p ∈ obj := by
  induction obj with
  | nil => simp [objSet]
  | cons q rest ih =>
    obtain ⟨a, b⟩ := q
    intro p hp
    by_cases ha : a = k
    · rw [objSet, if_pos ha] at hp
      rcases List.mem_cons.mp hp with rfl | hp
      · exact Or.inl rfl
      · exact Or.inr (List.mem_cons_of_mem _ hp)
    · rw [objSet, if_neg ha] at hp
      rcases List.mem_cons.mp hp with rfl | hp
      · exact Or.inr (List.mem_cons_self _ _)
      · rcases ih p hp with h | h
        · exact Or.inl h
        · exact Or.inr (List.mem_cons_of_mem _ h)

/-- A successful lookup comes from an entry of the object. -/
theorem objGet_mem {V : Type} (obj : List (String × V)) (k : String)
    (v : V) (h : objGet obj k = some v) : (k, v) ∈ obj := by
  induction obj with
  | nil => simp [objGet] at h
  | cons p rest ih =>
    obtain ⟨a, b⟩ := p
    by_cases ha : a = k
    · rw [objGet, if_pos ha] at h
      subst ha
      obtain rfl := Option.some.inj h
      exact List.mem_cons_self _ _
    · rw [objGet, if_neg ha] at h
      exact List.mem_cons_of_mem _ (ih h)

/-- Folding the trajectory-fetch step over missions none of which carry
the key `k` leaves the lookup at `k` unchanged. -/
theorem loadTraj_go_skip (fetch : Mission → Option Traj)
    (missions : List Mission) :
    ∀ (acc : List (String × Traj)) (k : String),
      (∀ m ∈ missions, m.id ≠ k) →
      objGet (missions.foldl (loadTrajStep fetch) acc) k = objGet acc k := by
  induction missions with
  | nil => intro acc k _; rfl
  | cons m rest ih =>
    intro acc k h
    rw [List.foldl_cons,
      ih _ k (fun m' hm' => h m' (List.mem_cons_of_mem _ hm'))]
    unfold loadTrajStep
    cases hf : fetch m with
    | none => rfl
    | some tr =>
      exact objGet_objSet_other acc m.id k tr
        (Ne.symm (h m (List.mem_cons_self _ _)))

/-- With pairwise distinct mission ids, the fold's final lookup at a
mission's id is its fetch result when the fetch succeeded, and the
accumulator's prior binding when it failed. -/
theorem loadTraj_go_lookup (fetch : Mission → Option Traj)
    (missions : List Mission)
    (hnodup : (missions.map Mission.id).Nodup) :
    ∀ (acc : List (String × Traj)), ∀ m ∈ missions,
      objGet (missions.foldl (loadTrajStep fetch) acc) m.id =
        (match fetch m with
         | some tr => some tr
         | none => objGet acc m.id) := by
  induction missions with
  | nil => intro acc m hm; simp at hm
  | cons m0 rest ih =>
    obtain ⟨hnotin, hrest⟩ : (∀ x ∈ rest, ¬x.id = m0.id) ∧
        (rest.map Mission.id).Nodup := by simpa using hnodup
    intro acc m hm
    rw [List.foldl_cons]
    rcases List.mem_cons.mp hm with rfl | hm
    · have hskip : ∀ m' ∈ rest, m'.id ≠ m.id := fun m' hm' => hnotin m' hm'
      rw [loadTraj_go_skip fetch rest _ m.id hskip]
      unfold loadTrajStep
      cases hf : fetch m with
      | some tr => simp [objGet_objSet_self]
      | none => rfl
    · rw [ih hrest _ m hm]
      cases hf : fetch m with
      | some tr => rfl
      | none =>
        unfold loadTrajStep
        cases hf0 : fetch m0 with
        | none => rfl
        | some tr0 =>
          exact objGet_objSet_other acc m0.id m.id tr0 (hnotin m hm)

/-- Every entry of the fold's result comes from a mission whose fetch
succeeded, or from the accumulator. -/
theorem loadTraj_go_mem (fetch : Mission → Option Traj)
    (missions : List Mission) :
    ∀ (acc : List (String × Traj)) (p : String × Traj),
      p ∈ missions.foldl (loadTrajStep fetch) acc →
      (∃ m ∈ missions, m.id = p.1 ∧ fetch m = some p.2) ∨ p ∈ acc := by
  induction missions with
  | nil => intro acc p hp; exact Or.inr hp
  | cons m0 rest ih =>
    intro acc p hp
    rw [List.foldl_cons] at hp
    rcases ih _ p hp with ⟨m, hm, hid, hf⟩ | hp
    · exact Or.inl ⟨m, List.mem_cons_of_mem _ hm, hid, hf⟩
    · rcases hfm : fetch m0 with _ | tr0
      · rw [loadTrajStep, hfm] at hp
        exact Or.inr hp
      · rw [loadTrajStep, hfm] at hp
        rcases mem_objSet acc m0.id tr0 p hp with rfl | hp
        · exact Or.inl ⟨m0, List.mem_cons_self _ _, rfl, hfm⟩
        · exact Or.inr hp

/-- C8: completing a verification whose per-mission trajectory fetches
may individually fail replaces the trajectory map wholesale with a map
that binds exactly the ids of the missions whose fetch succeeded (to
the fetched trajectory) and binds nothing else; a failed request skips
only its own mission and never aborts the batch. Mission ids are
assumed pairwise distinct, as the map is keyed by id. -/
theorem loadTrajectories_spec (s : AppState) (pm : Mission)
    (result : VerificationResult) (fetch : Mission → Option Traj)
    (hpm : s.primaryMission = some pm) (ho : s.otherMissions ≠ [])
    (hids : ((pm :: s.otherMissions).map Mission.id).Nodup) :
    (step s (.verify (some result) fetch)).trajectories =
      loadTrajectories (pm :: s.otherMissions) fetch ∧
    (∀ m ∈ pm :: s.otherMissions,
      objGet (loadTrajectories (pm :: s.otherMissions) fetch) m.id =
        fetch m) ∧
    (∀ k tr, (k, tr) ∈ loadTrajectories (pm :: s.otherMissions) fetch →
      ∃ m ∈ pm :: s.otherMissions, m.id = k ∧ fetch m = some tr) := by
  obtain ⟨o, os, hos⟩ : ∃ o os, s.otherMissions = o :: os := by
    cases h : s.otherMissions with
    | nil => exact absurd h ho
    | cons o os => exact ⟨o, os, rfl⟩
  refine ⟨?_, ?_, ?_⟩
  · simp [step, verifyMission, hpm, hos]
  · intro m hm
    unfold loadTrajectories
    rw [loadTraj_go_lookup fetch (pm :: s.otherMissions) hids [] m hm]
    cases hf : fetch m with
    | some tr => rfl
    | none => rfl
  · intro k tr hmem
    rcases loadTraj_go_mem fetch (pm :: s.otherMissions) [] (k, tr) hmem
      with ⟨m, hm, hid, hf⟩ | h
    · exact ⟨m, hm, hid, hf⟩
    · simp at h

/-- C8 witness: with primary "P" and other mission "D1", an oracle
failing exactly on "D1" yields a map binding "P" and omitting "D1". -/
theorem loadTrajectories_spec_witness :
    st8.primaryMission = some cexMissionP ∧
    st8.otherMissions ≠ [] ∧
    ((step st8 (.verify (some cexResult) fetch8)).trajectories =
      loadTrajectories (cexMissionP :: st8.otherMissions) fetch8 ∧
    (∀ m ∈ cexMissionP :: st8.otherMissions,
      objGet (loadTrajectories (cexMissionP :: st8.otherMissions) fetch8)
        m.id = fetch8 m) ∧
    (∀ k tr,
      (k, tr) ∈ loadTrajectories (cexMissionP :: st8.otherMissions) fetch8 →
      ∃ m ∈ cexMissionP :: st8.otherMissions,
        m.id = k ∧ fetch8 m = some tr)) :=
  ⟨rfl, by decide,
   loadTrajectories_spec st8 cexMissionP cexResult fetch8 rfl (by decide)
     (by decide)⟩

/-- A well-formed end time is the cast of a natural number. -/
theorem wfEnd_natCast (m : Mission) (h : wfEnd m) :
    ∃ n : ℕ, m.timeWindow.endT = (n : ℚ) := by
  obtain ⟨hden, hpos⟩ := h
  refine ⟨m.timeWindow.endT.num.toNat, ?_⟩
  have h1 : (m.timeWindow.endT.num : ℚ) = m.timeWindow.endT :=
    Rat.coe_int_num_of_den_eq_one hden
  have h2 : (0 : ℤ) ≤ m.timeWindow.endT.num := Rat.num_nonneg.mpr hpos
  rw [← h1]
  exact_mod_cast (Int.toNat_of_nonneg h2).symm

/-- The initial state satisfies the clock invariant. -/
theorem inv_initState : Inv initState := by
  refine ⟨⟨0, by simp [initState]⟩, ?_, ?_, fun _ => rfl⟩
  · intro p hp
    simp [initState] at hp
  · intro m hm
    simp [initState] at hm

/-- `loadScenario` preserves the clock invariant when every scenario of
the supplied catalog is well-formed. -/
theorem inv_loadScenario (s : AppState) (key : String)
    (data : List (String × Scenario)) (hInv : Inv s)
    (hdata : ∀ p ∈ data, wfEnd p.2.primary) :
    Inv (loadScenario s key data) := by
  obtain ⟨hnat, hscen, hprim, hnone⟩ := hInv
  unfold loadScenario
  cases hget : objGet data key with
  | none => exact ⟨hnat, hscen, hprim, hnone⟩
  | some sc =>
    have hwf : wfEnd sc.primary :=
      hdata (key, sc) (objGet_mem data key sc hget)
    refine ⟨⟨0, by simp⟩, hscen, ?_, fun _ => rfl⟩
    intro m hm
    obtain rfl := Option.some.inj hm
    exact ⟨hwf, hwf.2⟩

/-- Every event preserves the clock invariant, provided the event's
payload (for a catalog delivery) is well-formed. -/
theorem inv_step (s : AppState) (e : Event) (hInv : Inv s)
    (hg : goodEvent e) : Inv (step s e) := by
  obtain ⟨hnat, hscen, hprim, hnone⟩ := hInv
  cases e with
  | scenariosLoaded data =>
    exact inv_loadScenario _ "conflict" data ⟨hnat, hg, hprim, hnone⟩ hg
  | healthLoaded b => exact ⟨hnat, hscen, hprim, hnone⟩
  | selectScenario key =>
    exact inv_loadScenario s key s.scenarios ⟨hnat, hscen, hprim, hnone⟩
      hscen
  | togglePlay => exact ⟨hnat, hscen, hprim, hnone⟩
  | resetClock =>
    refine ⟨⟨0, by simp [step]⟩, hscen, ?_, fun _ => rfl⟩
    intro m hm
    obtain ⟨hwf, _⟩ := hprim m hm
    exact ⟨hwf, hwf.2⟩
  | verify response fetch =>
    show Inv (verifyMission s response fetch).1
    rcases hpm : s.primaryMission with _ | pm
    · simp only [verifyMission, hpm]
      exact ⟨hnat, hscen, hprim, hnone⟩
    · rcases hom : s.otherMissions with _ | ⟨o, os⟩
      · simp only [verifyMission, hpm, hom]
        exact ⟨hnat, hscen, hprim, hnone⟩
      · cases response with
        | none =>
          simp only [verifyMission, hpm, hom]
          refine ⟨hnat, hscen, ?_, ?_⟩
          · intro m hm
            obtain rfl := Option.some.inj hm
            exact hprim pm hpm
          · intro hmm
            exact absurd hmm (by simp)
        | some r =>
          simp only [verifyMission, hpm, hom]
          refine ⟨hnat, hscen, ?_, ?_⟩
          · intro m hm
            obtain rfl := Option.some.inj hm
            exact hprim pm hpm
          · intro hmm
            exact absurd hmm (by simp)
  | tickEv =>
    show Inv (tick s)
    rcases hpm : s.primaryMission with _ | pm
    · simp only [tick, hpm]
      exact ⟨hnat, hscen, hprim, hnone⟩
    · obtain ⟨hwf, hle⟩ := hprim pm hpm
      cases hp : s.isPlaying with
      | false =>
        have htick : tick s = s := by simp [tick, hpm, hp]
        rw [htick]
        exact ⟨hnat, hscen, hprim, hnone⟩
      | true =>
        by_cases hc : pm.timeWindow.endT ≤ s.currentTime
        · have htick : tick s =
              { s with currentTime := pm.timeWindow.endT,
                       isPlaying := false } := by
            simp [tick, hpm, hp, hc]
          rw [htick]
          obtain ⟨k, hk⟩ := wfEnd_natCast pm hwf
          refine ⟨⟨k, hk⟩, hscen, ?_, ?_⟩
          · intro m hm
            obtain rfl := Option.some.inj (hpm.symm.trans hm)
            exact ⟨hwf, le_refl _⟩
          · intro hmm
            exact absurd (hpm.symm.trans hmm) (by simp)
        · have htick : tick s = { s with currentTime := s.currentTime + 1 } := by
            simp [tick, hpm, hp, hc]
          rw [htick]
          obtain ⟨n, hn⟩ := hnat
          obtain ⟨k, hk⟩ := wfEnd_natCast pm hwf
          have hlt : s.currentTime < pm.timeWindow.endT := not_le.mp hc
          have hnk : n < k := by
            rw [hn, hk] at hlt
            exact_mod_cast hlt
          have hplus : s.currentTime + 1 ≤ pm.timeWindow.endT := by
            rw [hn, hk]
            have hcast : (n : ℚ) + 1 = ((n + 1 : ℕ) : ℚ) := by push_cast; ring
            rw [hcast]
            exact_mod_cast Nat.succ_le_of_lt hnk
          refine ⟨⟨n + 1, by rw [hn]; push_cast; ring⟩, hscen, ?_, ?_⟩
          · intro m hm
            obtain rfl := Option.some.inj (hpm.symm.trans hm)
            exact ⟨hwf, hplus⟩
          · intro hmm
            exact absurd (hpm.symm.trans hmm) (by simp)
  | toggleML => exact ⟨hnat, hscen, hprim, hnone⟩
  | toggleView => exact ⟨hnat, hscen, hprim, hnone⟩

/-- Any event trace of well-formed events leads to a state satisfying
the clock invariant. -/
theorem run_inv (events : List Event) (h : ∀ e ∈ events, goodEvent e) :
    Inv (run events) := by
  suffices haux : ∀ (l : List Event) (s : AppState), Inv s →
      (∀ e ∈ l, goodEvent e) → Inv (l.foldl step s) from
    haux events initState inv_initState h
  intro l
  induction l with
  | nil => exact fun s hs _ => hs
  | cons e rest ih =>
    intro s hs hg
    rw [List.foldl_cons]
    exact ih (step s e) (inv_step s e hs (hg e (List.mem_cons_self _ _)))
      (fun e' he' => hg e' (List.mem_cons_of_mem _ he'))

/-- C3 counterexample: the claim quantifies over every end value with
`end >= start`. With the scenario's `timeWindow = [0, 9/2]`, the state
reached by loading it, pressing Play and letting five ticks fire has
the primary mission loaded and `time = 5 > 9/2 = timeWindow.end`, so
`0 <= time <= end` does not hold in every reachable state. -/
theorem clock_bounds_counterexample :
    (run cexEvents3).primaryMission = some cexMission3 ∧
    cexMission3.timeWindow.start ≤ cexMission3.timeWindow.endT ∧
    ¬((run cexEvents3).currentTime ≤ cexMission3.timeWindow.endT) := by
  norm_num [run, cexEvents3, cexMission3, step, loadScenario, objGet, tick,
    initState, List.foldl]

/-- C3 (amended): provided every scenario delivered by the catalog has
a primary mission whose `timeWindow.end` is a non-negative integer, in
every reachable state with a primary mission loaded the simulated time
satisfies `0 <= time <= timeWindow.end`; and in every reachable state
without a primary mission the time is still `0` (the clock never
advances without one). For non-integer or negative end values the bound
can fail (see the counterexample). -/
theorem clock_bounds (events : List Event)
    (h : ∀ e ∈ events, goodEvent e) :
    (∀ m, (run events).primaryMission = some m →
      0 ≤ (run events).currentTime ∧
      (run events).currentTime ≤ m.timeWindow.endT) ∧
    ((run events).primaryMission = none → (run events).currentTime = 0) := by
  obtain ⟨⟨n, hn⟩, _, hprim, hnone⟩ := run_inv events h
  refine ⟨?_, hnone⟩
  intro m hm
  refine ⟨?_, (hprim m hm).2⟩
  rw [hn]
  exact_mod_cast Nat.zero_le n

/-- C3 witness: the `[0, 5]` scenario loaded, played and ticked once is
a well-formed trace, and the clock bounds hold in the reached state. -/
theorem clock_bounds_witness :
    (∀ e ∈ wEvents3, goodEvent e) ∧
    ((∀ m, (run wEvents3).primaryMission = some m →
      0 ≤ (run wEvents3).currentTime ∧
      (run wEvents3).currentTime ≤ m.timeWindow.endT) ∧
    ((run wEvents3).primaryMission = none →
      (run wEvents3).currentTime = 0)) :=
  ⟨by decide, clock_bounds wEvents3 (by decide)⟩

end UAV
